import Mathlib

/-!
Shallow embedding of `data_cleaning.py` (VSLR-model repository).

Measurement values are modelled as rationals (`ℚ`); Python dictionaries are
modelled as association lists in insertion order; fallible Python code is
modelled with `Except PyError`.
-/

set_option autoImplicit false

namespace VSLR

/-- Kinds of Python exceptions the script can raise. -/
inductive PyError where
  | indexError
  | valueError
  | stopIteration
deriving DecidableEq, Repr

/-- An observation: a pair of the time-label string and the measured value. -/
abbrev Obs := String × ℚ

/-- Model of `Dict[str, List[Tuple[str, float]]]` in insertion order. -/
abbrev SourceDataset := List (String × List Obs)

/-- Model of the `new_data` dictionary mapping a 4-character year string to a mean. -/
abbrev AnnualMeans := List (String × ℚ)

/-- Model of the Python slice `pair[0][0:4]`: the first four characters of a
time-label (Python slices strings by code point, as `List.take` on the
character data does). -/
def yearOfLabel (label : String) : String :=
  String.mk (label.data.take 4)

/-! ### Reader: `read_csv_data` -/

/-- Model of one column access in a data row: `row[j]` (IndexError when out of
range), the emptiness test `row[j] != ''`, and `float(row[j])` (ValueError when
`pf` cannot parse).  On a non-empty parseable cell it yields the observation
`(row[0], value)`; on an empty cell it yields nothing.  The float parser `pf`
is a parameter, since the claims do not depend on Python's float grammar. -/
def processCol (pf : String → Option ℚ) (row : List String) (j : Nat) :
    Except PyError (Option Obs) :=
  match row.get? j with
  | none => .error .indexError
  | some s =>
    if s = "" then .ok none
    else
      match pf s with
      | none => .error .valueError
      | some v => .ok (some (row.getD 0 "", v))

/-- Model of the body of the `for row in reader` loop: the four `if row[k] != ''`
blocks are evaluated left to right, each able to raise. -/
def rowStep (pf : String → Option ℚ) (row : List String) :
    Except PyError (Option Obs × Option Obs × Option Obs × Option Obs) := do
  let o1 ← processCol pf row 1
  let o2 ← processCol pf row 2
  let o3 ← processCol pf row 3
  let o4 ← processCol pf row 4
  .ok (o1, o2, o3, o4)

/-- Model of the row loop of `read_csv_data`, accumulating the four per-satellite
observation lists in order. -/
def readRowsAux (pf : String → Option ℚ) :
    List (List String) → List Obs → List Obs → List Obs → List Obs →
    Except PyError (List Obs × List Obs × List Obs × List Obs)
  | [], t, j1, j2, j3 => .ok (t, j1, j2, j3)
  | row :: rest, t, j1, j2, j3 =>
    match rowStep pf row with
    | .error e => .error e
    | .ok (o1, o2, o3, o4) =>
      readRowsAux pf rest (t ++ o1.toList) (j1 ++ o2.toList) (j2 ++ o3.toList) (j3 ++ o4.toList)

/-- Model of `read_csv_data`: `rows` is the full sequence of csv rows.  The six
`next(reader)` calls raise `StopIteration` when fewer than six rows exist;
afterwards the remaining rows are scanned into the dictionary whose four keys
are fixed in insertion order. -/
def read_csv_data (pf : String → Option ℚ) (rows : List (List String)) :
    Except PyError SourceDataset :=
  if rows.length < 6 then .error .stopIteration
  else
    match readRowsAux pf (rows.drop 6) [] [] [] [] with
    | .error e => .error e
    | .ok (t, j1, j2, j3) =>
      .ok [("topex_pos", t), ("jason-1", j1), ("jason-2", j2), ("jason-3", j3)]

/-- Acceptability of one cell for the reader: absent, empty, or parseable. -/
def cellOkB (pf : String → Option ℚ) (o : Option String) : Bool :=
  match o with
  | none => true
  | some s => s == "" || (pf s).isSome

/-- Well-formedness of a data row, as the spec describes valid input: at least
five columns, and every non-empty value in columns 1-4 parseable. -/
def wellFormedRow (pf : String → Option ℚ) (row : List String) : Prop :=
  5 ≤ row.length ∧ ∀ j ∈ [1, 2, 3, 4], cellOkB pf (row.get? j) = true

/-- Modelled from the spec: the observation one row contributes to the satellite
of column `j` — an empty column value is skipped, otherwise the value is
parsed and paired with the row's time-label (column 0). -/
def colOpt (pf : String → Option ℚ) (row : List String) (j : Nat) : Option Obs :=
  match row.get? j with
  | none => none
  | some s => if s = "" then none else (pf s).map (fun v => (row.getD 0 "", v))

/-- Modelled from the spec: the full observation list of the satellite of column
`j`, collected over all data rows. -/
def specColObs (pf : String → Option ℚ) (j : Nat) (rows : List (List String)) : List Obs :=
  rows.filterMap (fun row => colOpt pf row j)

/-- Badness of a data row, as the claim describes failing input: fewer than five
columns, or some non-empty value in columns 1-4 that does not parse. -/
def badRow (pf : String → Option ℚ) (row : List String) : Prop :=
  row.length < 5 ∨ ∃ j ∈ [1, 2, 3, 4], ∃ s, row.get? j = some s ∧ s ≠ "" ∧ pf s = none

/-! ### Aggregator: `group_means` and `remove_dupes` -/

/-- Model of the in-place dictionary write `new_data[year] = v` when `year` is
already a key: the stored value at that key is replaced, order preserved. -/
def updateVal (year : String) (v : ℚ) : AnnualMeans → AnnualMeans
  | [] => []
  | (k, w) :: rest => if k = year then (k, v) :: rest else (k, w) :: updateVal year v rest

/-- Model of `remove_dupes(year, new_data, mean)`: insert when the key is absent,
otherwise replace the stored value with the unweighted average of the previous
value and the new mean. -/
def remove_dupes (year : String) (new_data : AnnualMeans) (mean : ℚ) : AnnualMeans :=
  match List.lookup year new_data with
  | none => new_data ++ [(year, mean)]
  | some prev => updateVal year ((prev + mean) / 2) new_data

/-- Model of `sorted({pair[0][0:4] for pair in data[satellite]})`: the
deduplicated year strings of a source, sorted ascending.  On a list of
distinct keys every correct sort produces the same output, so insertion sort
models Python's `sorted` faithfully here. -/
def yearsOf (obs : List Obs) : List String :=
  List.insertionSort (fun a b : String => a ≤ b) ((obs.map (fun pair => yearOfLabel pair.1)).dedup)

/-- Model of the inner accumulation loop of `group_means`: starting from
`annual_mean = 0` and `count = 0`, add `pair[1]` and bump the count for every
pair whose year matches. -/
def yearAccum (obs : List Obs) (year : String) : ℚ × ℕ :=
  obs.foldl
    (fun acc pair => if year = yearOfLabel pair.1 then (acc.1 + pair.2, acc.2 + 1) else acc)
    (0, 0)

/-- Model of `annual_mean /= count` after the accumulation loop (division of the
accumulated sum by the match count). -/
def annualMean (obs : List Obs) (year : String) : ℚ :=
  (yearAccum obs year).1 / ((yearAccum obs year).2 : ℚ)

/-- Model of the per-satellite part of `group_means`: for each year of the source
in sorted order, compute the annual mean and merge it via `remove_dupes`. -/
def processSource (new_data : AnnualMeans) (obs : List Obs) : AnnualMeans :=
  (yearsOf obs).foldl (fun nd year => remove_dupes year nd (annualMean obs year)) new_data

/-- Model of `group_means(data)`: fold the per-satellite processing over the
dataset in insertion order, starting from the empty dictionary. -/
def group_means (data : SourceDataset) : AnnualMeans :=
  data.foldl (fun nd entry => processSource nd entry.2) []

/-! ### Forecast bridge: `predict_data` -/

/-- Model of Python `range(a, b)` over integers. -/
def pyRange (a b : ℤ) : List ℤ :=
  (List.range (b - a).toNat).map (fun k : ℕ => a + (k : ℤ))

/-- Model of the writer loop of `predict_data`: for each year in turn, read
`values[1][i]` (IndexError when the predictions are exhausted), emit the row
and increment `i`. -/
def predictAux (preds : List ℚ) : List ℤ → Nat → Except PyError (List (ℤ × ℚ))
  | [], _ => .ok []
  | y :: ys, i =>
    match preds.get? i with
    | none => .error .indexError
    | some v =>
      match predictAux preds ys (i + 1) with
      | .error e => .error e
      | .ok rest => .ok ((y, v) :: rest)

/-- Model of `predict_data`, parameterised by the result of the external routine
`process_file()`: the exclusive end year `values[0]` and the prediction list
`values[1]`.  Returns the rows appended to the csv. -/
def predict_data (endYear : ℤ) (preds : List ℚ) : Except PyError (List (ℤ × ℚ)) :=
  predictAux preds (pyRange 2021 endYear) 0

/-! ### Date conversion: `decimal_year_to_datetime` -/

/-- Model of Python `int(x)` on a float: truncation toward zero. -/
def intTrunc (x : ℚ) : ℤ :=
  if 0 ≤ x then ⌊x⌋ else ⌈x⌉

/-- Gregorian leap-year test, as implemented by Python's `datetime`. -/
def isLeap (y : ℤ) : Bool :=
  (y % 4 == 0 && y % 100 != 0) || y % 400 == 0

/-- Number of days from January 1 of year `y` to January 1 of year `y + 1`. -/
def daysInYear (y : ℤ) : ℕ :=
  if isLeap y then 366 else 365

/-- Month lengths of year `y`, January first. -/
def monthLengths (y : ℤ) : List ℕ :=
  [31, if isLeap y then 29 else 28, 31, 30, 31, 30, 31, 31, 30, 31, 30, 31]

/-- Calendar date (proleptic Gregorian), mirroring `datetime.date`. -/
structure Date where
  year : ℤ
  month : ℕ
  day : ℕ
deriving DecidableEq, Repr

/-- Walk the month lengths to convert a 0-based day-of-year offset into a
1-based (month, day) pair. -/
def monthDayAux : List ℕ → ℕ → ℕ → ℕ × ℕ
  | [], m, d => (m, d + 1)
  | len :: rest, m, d => if d < len then (m, d + 1) else monthDayAux rest (m + 1) (d - len)

/-- Model of `decimal_year_to_datetime`: split into whole year and remainder,
scale the remainder by the duration of the year (in seconds; exactly
`daysInYear y` days), add the offset to January 1, take the date component,
and replace the day of month with 1.  `datetime(year, 1, 1)` raises for years
before 1, and `base.replace(year=base.year + 1)` raises when `year + 1`
exceeds 9999. -/
def decimal_year_to_datetime (x : ℚ) : Except PyError Date :=
  let year := intTrunc x
  let rem := x - (year : ℚ)
  if year < 1 ∨ 9999 ≤ year then .error .valueError
  else
    let d := (⌊rem * (daysInYear year : ℚ)⌋).toNat
    let md := monthDayAux (monthLengths year) 1 d
    let date : Date := { year := year, month := md.1, day := md.2 }
    .ok { date with day := 1 }

/-! ### Helper lemmas about association-list dictionaries -/

theorem lookup_cons (y k : String) (v : ℚ) (l : AnnualMeans) :
    List.lookup y ((k, v) :: l) = if y = k then some v else List.lookup y l := by
  by_cases h : y = k
  · subst h
    simp [List.lookup]
  · simp [List.lookup, h, beq_eq_false_iff_ne.mpr h]

theorem lookup_append (y : String) (l1 l2 : AnnualMeans) :
    List.lookup y (l1 ++ l2) = (List.lookup y l1).or (List.lookup y l2) := by
  induction l1 with
  | nil => simp
  | cons p rest ih =>
    obtain ⟨k, v⟩ := p
    by_cases h : y = k <;> simp [lookup_cons, h, ih]

theorem updateVal_map_fst (year : String) (v : ℚ) (nd : AnnualMeans) :
    (updateVal year v nd).map Prod.fst = nd.map Prod.fst := by
  induction nd with
  | nil => rfl
  | cons p rest ih =>
    obtain ⟨k, w⟩ := p
    by_cases h : k = year <;> simp [updateVal, h, ih]

theorem lookup_updateVal_self (year : String) (v : ℚ) (nd : AnnualMeans)
    (h : (List.lookup year nd).isSome) :
    List.lookup year (updateVal year v nd) = some v := by
  induction nd with
  | nil => simp [List.lookup] at h
  | cons p rest ih =>
    obtain ⟨k, w⟩ := p
    by_cases hk : k = year
    · subst hk
      simp [updateVal, lookup_cons]
    · rw [lookup_cons, if_neg (fun hh => hk hh.symm)] at h
      rw [updateVal, if_neg hk, lookup_cons, if_neg (fun hh => hk hh.symm)]
      exact ih h

theorem lookup_updateVal_ne (y year : String) (v : ℚ) (nd : AnnualMeans) (hne : y ≠ year) :
    List.lookup y (updateVal year v nd) = List.lookup y nd := by
  induction nd with
  | nil => rfl
  | cons p rest ih =>
    obtain ⟨k, w⟩ := p
    by_cases hk : k = year
    · subst hk
      rw [updateVal, if_pos rfl, lookup_cons, lookup_cons, if_neg hne, if_neg hne]
    · rw [updateVal, if_neg hk, lookup_cons, lookup_cons]
      by_cases hy : y = k
      · simp [hy]
      · rw [if_neg hy, if_neg hy, ih]

theorem remove_dupes_absent (year : String) (nd : AnnualMeans) (mean : ℚ)
    (h : List.lookup year nd = none) :
    remove_dupes year nd mean = nd ++ [(year, mean)] := by
  simp [remove_dupes, h]

theorem lookup_remove_dupes_present (year : String) (nd : AnnualMeans) (prev mean : ℚ)
    (h : List.lookup year nd = some prev) :
    List.lookup year (remove_dupes year nd mean) = some ((prev + mean) / 2) := by
  rw [remove_dupes, h]
  exact lookup_updateVal_self year _ nd (by simp [h])

theorem lookup_remove_dupes_ne (y year : String) (nd : AnnualMeans) (mean : ℚ)
    (hne : y ≠ year) :
    List.lookup y (remove_dupes year nd mean) = List.lookup y nd := by
  rw [remove_dupes]
  cases h : List.lookup year nd with
  | none =>
    rw [lookup_append, lookup_cons, if_neg hne]
    simp [List.lookup]
  | some prev => exact lookup_updateVal_ne y year _ nd hne

theorem mem_keys_remove_dupes (y year : String) (nd : AnnualMeans) (mean : ℚ)
    (h : y ∈ (remove_dupes year nd mean).map Prod.fst) :
    y ∈ nd.map Prod.fst ∨ y = year := by
  rw [remove_dupes] at h
  cases hl : List.lookup year nd with
  | none =>
    rw [hl] at h
    simp at h
    rcases h with h | h
    · exact Or.inl (by simp [List.mem_map]; exact h)
    · exact Or.inr h
  | some prev =>
    rw [hl, updateVal_map_fst] at h
    exact Or.inl h

/-! ### Helper lemmas about the aggregation loop -/

theorem mem_yearsOf (Y : String) (obs : List Obs) :
    Y ∈ yearsOf obs ↔ ∃ p ∈ obs, yearOfLabel p.1 = Y := by
  simp [yearsOf, List.mem_insertionSort, List.mem_dedup, List.mem_map]

theorem nodup_yearsOf (obs : List Obs) : (yearsOf obs).Nodup :=
  ((List.perm_insertionSort _ _).symm).nodup (List.nodup_dedup _)

theorem dedup_of_all_eq (Y : String) (l : List String) (hne : l ≠ [])
    (h : ∀ x ∈ l, x = Y) : l.dedup = [Y] := by
  induction l with
  | nil => exact absurd rfl hne
  | cons x rest ih =>
    have hx : x = Y := h x (by simp)
    subst hx
    cases rest with
    | nil => simp
    | cons z zs =>
      have hz : z = x := (h z (by simp)).trans (h x (by simp)).symm
      have hmem : x ∈ z :: zs := by
        rw [hz]
        simp
      rw [List.dedup_cons_of_mem hmem]
      exact ih (by simp) (fun q hq => h q (by simp [hq]))

theorem yearsOf_all_eq (Y : String) (obs : List Obs) (hne : obs ≠ [])
    (h : ∀ p ∈ obs, yearOfLabel p.1 = Y) : yearsOf obs = [Y] := by
  have hall : ∀ x ∈ obs.map (fun pair => yearOfLabel pair.1), x = Y := by
    intro x hx
    obtain ⟨p, hp, rfl⟩ := List.mem_map.mp hx
    exact h p hp
  rw [yearsOf, dedup_of_all_eq Y _ (by simpa using hne) hall]
  rfl

theorem yearAccum_go_all (year : String) (obs : List Obs)
    (h : ∀ p ∈ obs, yearOfLabel p.1 = year) (a : ℚ) (c : ℕ) :
    obs.foldl
        (fun acc pair => if year = yearOfLabel pair.1 then (acc.1 + pair.2, acc.2 + 1) else acc)
        (a, c)
      = (a + (obs.map Prod.snd).sum, c + obs.length) := by
  induction obs generalizing a c with
  | nil => simp
  | cons p rest ih =>
    have hp : yearOfLabel p.1 = year := h p (by simp)
    rw [List.foldl_cons, if_pos hp.symm, ih (fun q hq => h q (by simp [hq]))]
    refine Prod.ext ?_ ?_
    · simp [add_assoc]
    · simp
      omega

theorem yearAccum_count_le (year : String) (obs : List Obs) (a : ℚ) (c : ℕ) :
    c ≤ (obs.foldl
        (fun acc pair => if year = yearOfLabel pair.1 then (acc.1 + pair.2, acc.2 + 1) else acc)
        (a, c)).2 := by
  induction obs generalizing a c with
  | nil => simp
  | cons p rest ih =>
    rw [List.foldl_cons]
    by_cases hp : year = yearOfLabel p.1
    · rw [if_pos hp]
      exact le_trans (Nat.le_succ c) (ih _ _)
    · rw [if_neg hp]
      exact ih _ _

theorem yearAccum_count_pos_of_mem (year : String) (obs : List Obs)
    (h : ∃ p ∈ obs, yearOfLabel p.1 = year) (a : ℚ) (c : ℕ) :
    c + 1 ≤ (obs.foldl
        (fun acc pair => if year = yearOfLabel pair.1 then (acc.1 + pair.2, acc.2 + 1) else acc)
        (a, c)).2 := by
  induction obs generalizing a c with
  | nil => simp at h
  | cons p rest ih =>
    rw [List.foldl_cons]
    by_cases hp : year = yearOfLabel p.1
    · rw [if_pos hp]
      exact yearAccum_count_le year rest _ _
    · rw [if_neg hp]
      obtain ⟨q, hq, hqy⟩ := h
      rcases List.mem_cons.mp hq with hq | hq
      · exact absurd (hq ▸ hqy).symm hp
      · exact ih ⟨q, hq, hqy⟩ _ _

theorem mem_keys_foldl_years (Y : String) (f : String → ℚ) :
    ∀ (ys : List String) (nd : AnnualMeans),
      Y ∈ ((ys.foldl (fun nd year => remove_dupes year nd (f year)) nd).map Prod.fst) →
      Y ∈ nd.map Prod.fst ∨ Y ∈ ys
  | [], _, h => Or.inl h
  | y :: rest, nd, h => by
    rw [List.foldl_cons] at h
    rcases mem_keys_foldl_years Y f rest _ h with h' | h'
    · rcases mem_keys_remove_dupes Y y nd (f y) h' with h'' | h''
      · exact Or.inl h''
      · exact Or.inr (by simp [h''])
    · exact Or.inr (by simp [h'])

theorem mem_keys_group_means_fold (Y : String) :
    ∀ (data : SourceDataset) (nd : AnnualMeans),
      Y ∈ ((data.foldl (fun nd entry => processSource nd entry.2) nd).map Prod.fst) →
      Y ∈ nd.map Prod.fst ∨ ∃ e ∈ data, Y ∈ yearsOf e.2
  | [], _, h => Or.inl h
  | e :: rest, nd, h => by
    rw [List.foldl_cons] at h
    rcases mem_keys_group_means_fold Y rest _ h with h' | h'
    · rcases mem_keys_foldl_years Y _ _ nd h' with h'' | h''
      · exact Or.inl h''
      · exact Or.inr ⟨e, by simp, h''⟩
    · obtain ⟨e', he', hy⟩ := h'
      exact Or.inr ⟨e', by simp [he'], hy⟩

theorem lookup_foldl_years_not_mem (Y : String) (f : String → ℚ) :
    ∀ (ys : List String), Y ∉ ys → ∀ nd : AnnualMeans,
      List.lookup Y (ys.foldl (fun nd year => remove_dupes year nd (f year)) nd) =
        List.lookup Y nd
  | [], _, _ => rfl
  | y :: rest, hY, nd => by
    have hy : Y ≠ y := fun he => hY (by simp [he])
    have hrest : Y ∉ rest := fun hr => hY (by simp [hr])
    rw [List.foldl_cons, lookup_foldl_years_not_mem Y f rest hrest _,
      lookup_remove_dupes_ne Y y nd (f y) hy]

theorem lookup_foldl_years_found (Y : String) (f : String → ℚ) (ys : List String)
    (hmem : Y ∈ ys) (hnod : ys.Nodup) (nd : AnnualMeans)
    (hnone : List.lookup Y nd = none) :
    List.lookup Y (ys.foldl (fun nd year => remove_dupes year nd (f year)) nd) =
      some (f Y) := by
  obtain ⟨l1, l2, rfl⟩ := List.append_of_mem hmem
  have hY1 : Y ∉ l1 := fun hmem1 => (List.disjoint_of_nodup_append hnod) hmem1 (by simp)
  have hY2 : Y ∉ l2 := (List.nodup_cons.mp (List.Nodup.of_append_right hnod)).1
  rw [List.foldl_append, List.foldl_cons, lookup_foldl_years_not_mem Y f l2 hY2]
  have h1 : List.lookup Y (l1.foldl (fun nd year => remove_dupes year nd (f year)) nd) = none := by
    rw [lookup_foldl_years_not_mem Y f l1 hY1 nd]
    exact hnone
  rw [remove_dupes_absent Y _ (f Y) h1, lookup_append, h1, lookup_cons, if_pos rfl]
  rfl

theorem lookup_processSource_not_mem (Y : String) (nd : AnnualMeans) (obs : List Obs)
    (h : ∀ p ∈ obs, yearOfLabel p.1 ≠ Y) :
    List.lookup Y (processSource nd obs) = List.lookup Y nd := by
  have hnm : Y ∉ yearsOf obs := fun hm => by
    obtain ⟨p, hp, hpy⟩ := (mem_yearsOf Y obs).mp hm
    exact h p hp hpy
  exact lookup_foldl_years_not_mem Y _ _ hnm nd

theorem lookup_group_means_fold_not_mem (Y : String) :
    ∀ (data : SourceDataset), (∀ e ∈ data, ∀ p ∈ e.2, yearOfLabel p.1 ≠ Y) →
    ∀ nd : AnnualMeans,
      List.lookup Y (data.foldl (fun nd entry => processSource nd entry.2) nd) =
        List.lookup Y nd
  | [], _, _ => rfl
  | e :: rest, h, nd => by
    rw [List.foldl_cons,
      lookup_group_means_fold_not_mem Y rest (fun e' he' => h e' (by simp [he'])) _,
      lookup_processSource_not_mem Y nd e.2 (h e (by simp))]

/-! ### Helper lemmas about the forecast loop -/

theorem zip_get?_eq {α β : Type} :
    ∀ (l1 : List α) (l2 : List β) (k : ℕ) {a : α} {b : β},
      l1.get? k = some a → l2.get? k = some b →
      (l1.zip l2).get? k = some (a, b) := by
  intro l1
  induction l1 with
  | nil =>
    intro l2 k a b h1 h2
    simp at h1
  | cons x l1 ih =>
    intro l2 k a b h1 h2
    cases l2 with
    | nil => simp at h2
    | cons y l2 =>
      cases k with
      | zero => simp_all
      | succ k =>
        simp only [List.zip_cons_cons, List.get?] at h1 h2 ⊢
        exact ih l2 k h1 h2

theorem predictAux_ok (preds : List ℚ) :
    ∀ (ys : List ℤ) (i : Nat), i + ys.length ≤ preds.length →
      predictAux preds ys i = .ok (ys.zip (preds.drop i))
  | [], i, _ => by simp [predictAux]
  | y :: ys, i, h => by
    have hi : i < preds.length := by
      simp only [List.length_cons] at h
      omega
    rw [predictAux, List.get?_eq_get hi,
      predictAux_ok preds ys (i + 1) (by simp only [List.length_cons] at h; omega),
      List.drop_eq_get_cons hi]
    rfl

theorem predictAux_error (preds : List ℚ) :
    ∀ (ys : List ℤ) (i : Nat), ys ≠ [] → preds.length < i + ys.length →
      predictAux preds ys i = .error .indexError
  | [], _, hne, _ => absurd rfl hne
  | y :: ys, i, _, h => by
    cases hv : preds.get? i with
    | none => rw [predictAux, hv]
    | some v =>
      obtain ⟨hi, -⟩ := List.get?_eq_some.mp hv
      cases ys with
      | nil =>
        exfalso
        simp only [List.length_cons, List.length_nil] at h
        omega
      | cons z zs =>
        rw [predictAux, hv, predictAux_error preds (z :: zs) (i + 1) (by simp)
          (by simp only [List.length_cons] at h ⊢; omega)]

theorem pyRange_length (a b : ℤ) : (pyRange a b).length = (b - a).toNat := by
  rw [pyRange, List.length_map, List.length_range]

theorem pyRange_get? (a b : ℤ) (k : ℕ) (hk : k < (b - a).toNat) :
    (pyRange a b).get? k = some (a + (k : ℤ)) := by
  rw [pyRange, List.get?_map, List.get?_range hk]
  rfl

/-! ### Helper lemmas about the reader -/

theorem processCol_ok (pf : String → Option ℚ) (row : List String)
    (hwf : wellFormedRow pf row) (j : Nat) (hj : j ∈ [1, 2, 3, 4]) :
    processCol pf row j = .ok (colOpt pf row j) := by
  obtain ⟨hlen, hcell⟩ := hwf
  have hj5 : j < 5 := by
    simp at hj
    rcases hj with rfl | rfl | rfl | rfl <;> norm_num
  have hlt : j < row.length := lt_of_lt_of_le hj5 hlen
  obtain ⟨s, hs⟩ : ∃ s, row.get? j = some s := ⟨row.get ⟨j, hlt⟩, List.get?_eq_get hlt⟩
  have hc := hcell j hj
  rw [hs] at hc
  simp only [cellOkB, Bool.or_eq_true, beq_iff_eq] at hc
  simp only [processCol, colOpt, hs]
  by_cases he : s = ""
  · simp [he]
  · rcases hc with hc | hc
    · exact absurd hc he
    · obtain ⟨v, hv⟩ := Option.isSome_iff_exists.mp hc
      simp [he, hv]

theorem rowStep_ok (pf : String → Option ℚ) (row : List String)
    (hwf : wellFormedRow pf row) :
    rowStep pf row =
      .ok (colOpt pf row 1, colOpt pf row 2, colOpt pf row 3, colOpt pf row 4) := by
  have h1 := processCol_ok pf row hwf 1 (by simp)
  have h2 := processCol_ok pf row hwf 2 (by simp)
  have h3 := processCol_ok pf row hwf 3 (by simp)
  have h4 := processCol_ok pf row hwf 4 (by simp)
  rw [rowStep, h1, h2, h3, h4]
  rfl

theorem specColObs_cons (pf : String → Option ℚ) (j : Nat) (row : List String)
    (rest : List (List String)) :
    specColObs pf j (row :: rest) = (colOpt pf row j).toList ++ specColObs pf j rest := by
  rw [specColObs, List.filterMap_cons]
  cases colOpt pf row j <;> simp [specColObs]

theorem readRowsAux_ok (pf : String → Option ℚ) :
    ∀ (rows : List (List String)), (∀ row ∈ rows, wellFormedRow pf row) →
    ∀ (t j1 j2 j3 : List Obs),
      readRowsAux pf rows t j1 j2 j3 =
        .ok (t ++ specColObs pf 1 rows, j1 ++ specColObs pf 2 rows,
             j2 ++ specColObs pf 3 rows, j3 ++ specColObs pf 4 rows)
  | [], _, t, j1, j2, j3 => by simp [readRowsAux, specColObs]
  | row :: rest, hwf, t, j1, j2, j3 => by
    simp only [readRowsAux, rowStep_ok pf row (hwf row (by simp))]
    rw [readRowsAux_ok pf rest (fun r hr => hwf r (by simp [hr])) _ _ _ _]
    simp [specColObs_cons, List.append_assoc]

theorem colOpt_eq_some (pf : String → Option ℚ) (row : List String) (j : Nat) (q : Obs)
    (h : colOpt pf row j = some q) :
    ∃ s, row.get? j = some s ∧ s ≠ "" ∧ pf s = some q.2 ∧ q.1 = row.getD 0 "" := by
  cases hs : row.get? j with
  | none =>
    rw [colOpt, hs] at h
    cases h
  | some s =>
    simp only [colOpt, hs] at h
    by_cases he : s = ""
    · rw [if_pos he] at h
      exact Option.noConfusion h
    · rw [if_neg he] at h
      cases hv : pf s with
      | none =>
        rw [hv] at h
        exact Option.noConfusion h
      | some v =>
        rw [hv, Option.map_some', Option.some.injEq] at h
        subst h
        exact ⟨s, rfl, he, hv, rfl⟩

theorem processCol_error_iff (pf : String → Option ℚ) (row : List String) (j : Nat) :
    (∃ e, processCol pf row j = .error e) ↔
      (row.get? j = none ∨ ∃ s, row.get? j = some s ∧ s ≠ "" ∧ pf s = none) := by
  cases hs : row.get? j with
  | none =>
    simp only [processCol, hs]
    simp
  | some s =>
    by_cases he : s = ""
    · subst he
      simp only [processCol, hs]
      simp
    · cases hv : pf s with
      | none =>
        simp only [processCol, hs, if_neg he, hv]
        simp [he, hv]
      | some v =>
        simp only [processCol, hs, if_neg he, hv]
        simp [he, hv]

theorem not_badRow_iff (pf : String → Option ℚ) (row : List String) :
    ¬ badRow pf row ↔ wellFormedRow pf row := by
  rw [badRow, wellFormedRow]
  push_neg
  constructor
  · rintro ⟨hlen, hcell⟩
    refine ⟨hlen, fun j hj => ?_⟩
    cases hs : row.get? j with
    | none => rfl
    | some s =>
      by_cases he : s = ""
      · simp [cellOkB, he]
      · have := hcell j hj s hs he
        simp [cellOkB, he, Option.ne_none_iff_isSome.mp this]
  · rintro ⟨hlen, hcell⟩
    refine ⟨hlen, fun j hj s hs he => ?_⟩
    have := hcell j hj
    rw [hs] at this
    simp only [cellOkB, Bool.or_eq_true, beq_iff_eq] at this
    rcases this with h | h
    · exact absurd h he
    · exact Option.ne_none_iff_isSome.mpr h

theorem rowStep_error_of_bad (pf : String → Option ℚ) (row : List String)
    (hb : badRow pf row) : ∃ e, rowStep pf row = .error e := by
  cases h1 : processCol pf row 1 with
  | error e => exact ⟨e, by rw [rowStep, h1]; rfl⟩
  | ok o1 =>
    cases h2 : processCol pf row 2 with
    | error e => exact ⟨e, by rw [rowStep, h1, h2]; rfl⟩
    | ok o2 =>
      cases h3 : processCol pf row 3 with
      | error e => exact ⟨e, by rw [rowStep, h1, h2, h3]; rfl⟩
      | ok o3 =>
        cases h4 : processCol pf row 4 with
        | error e => exact ⟨e, by rw [rowStep, h1, h2, h3, h4]; rfl⟩
        | ok o4 =>
          exfalso
          have hok : ∀ j ∈ [1, 2, 3, 4], ¬ ∃ e, processCol pf row j = .error e := by
            intro j hj
            simp at hj
            rcases hj with rfl | rfl | rfl | rfl <;> simp [h1, h2, h3, h4]
          rcases hb with h5 | ⟨j, hj, s, hs, hne, hnone⟩
          · have h4none : row.get? 4 = none := List.get?_eq_none.mpr (by omega)
            exact hok 4 (by simp) ((processCol_error_iff pf row 4).mpr (Or.inl h4none))
          · exact hok j hj ((processCol_error_iff pf row j).mpr (Or.inr ⟨s, hs, hne, hnone⟩))

theorem readRowsAux_error_of_bad (pf : String → Option ℚ) :
    ∀ (rows : List (List String)) (t j1 j2 j3 : List Obs),
      (∃ row ∈ rows, badRow pf row) →
      ∃ e, readRowsAux pf rows t j1 j2 j3 = .error e
  | [], _, _, _, _, hex => by simp at hex
  | row :: rest, t, j1, j2, j3, hex => by
    obtain ⟨r, hr, hb⟩ := hex
    rcases List.mem_cons.mp hr with rfl | hr'
    · obtain ⟨e, he⟩ := rowStep_error_of_bad pf r hb
      exact ⟨e, by rw [readRowsAux, he]⟩
    · cases hs : rowStep pf row with
      | error e => exact ⟨e, by rw [readRowsAux, hs]⟩
      | ok os =>
        obtain ⟨o1, o2, o3, o4⟩ := os
        obtain ⟨e, he⟩ := readRowsAux_error_of_bad pf rest
          (t ++ o1.toList) (j1 ++ o2.toList) (j2 ++ o3.toList) (j3 ++ o4.toList) ⟨r, hr', hb⟩
        exact ⟨e, by rw [readRowsAux, hs]; exact he⟩

/-! ### Claim theorems -/

/-- C1: `remove_dupes(year, new_data, mean)` inserts `mean` at key `year` when the
key is absent, and otherwise replaces the stored value with the unweighted
average `(prev + mean) / 2`; merging 10 then 20 for the same year yields 15,
then merging 40 yields `(15 + 40) / 2 = 27.5`, which differs from the 3-way
mean `70 / 3`. -/
theorem remove_dupes_merge_rule :
    (∀ (year : String) (nd : AnnualMeans) (mean : ℚ),
        List.lookup year nd = none → remove_dupes year nd mean = nd ++ [(year, mean)]) ∧
    (∀ (year : String) (nd : AnnualMeans) (prev mean : ℚ),
        List.lookup year nd = some prev →
        List.lookup year (remove_dupes year nd mean) = some ((prev + mean) / 2)) ∧
    remove_dupes "1993" (remove_dupes "1993" [] 10) 20 = [("1993", 15)] ∧
    remove_dupes "1993" (remove_dupes "1993" (remove_dupes "1993" [] 10) 20) 40 =
      [("1993", 55 / 2)] ∧
    (55 / 2 : ℚ) = (15 + 40) / 2 ∧ (55 / 2 : ℚ) ≠ 70 / 3 := by
  refine ⟨remove_dupes_absent, lookup_remove_dupes_present, ?_, ?_, by norm_num, by norm_num⟩
  · norm_num [remove_dupes, updateVal, List.lookup]
  · norm_num [remove_dupes, updateVal, List.lookup]

/-- Witness for C1 at concrete inputs: inserting into the empty dictionary, and
averaging with a previously stored mean. -/
theorem remove_dupes_merge_rule_witness :
    remove_dupes "1993" [] (10 : ℚ) = [("1993", 10)] ∧
    List.lookup "1993" (remove_dupes "1993" [("1993", (10 : ℚ))] 20) = some 15 := by
  constructor
  · exact remove_dupes_merge_rule.1 "1993" [] 10 (by simp [List.lookup])
  · have h := remove_dupes_merge_rule.2.1 "1993" [("1993", (10 : ℚ))] 10 20
      (by simp [List.lookup])
    rw [h]
    norm_num

/-- C2: for a dataset with a single source whose observations all share one
4-character year label, `group_means` returns exactly that year mapped to the
arithmetic mean of the source's observation values. -/
theorem group_means_single_source (s Y : String) (obs : List Obs)
    (hne : obs ≠ []) (hY : ∀ p ∈ obs, yearOfLabel p.1 = Y) :
    group_means [(s, obs)] = [(Y, (obs.map Prod.snd).sum / (obs.length : ℚ))] := by
  rw [group_means, List.foldl_cons, List.foldl_nil, processSource,
    yearsOf_all_eq Y obs hne hY, List.foldl_cons, List.foldl_nil,
    remove_dupes_absent Y [] _ rfl, List.nil_append]
  have hacc : yearAccum obs Y = ((obs.map Prod.snd).sum, obs.length) := by
    rw [yearAccum, yearAccum_go_all Y obs hY 0 0]
    simp
  rw [annualMean, hacc]

/-- Witness for C2: the spec's scenario, where `topex_pos` observes 10.0 at
"1993.1" and 20.0 at "1993.9", yields the annual mean 15 for "1993". -/
theorem group_means_single_source_witness :
    group_means [("topex_pos", [("1993.1", (10 : ℚ)), ("1993.9", 20)])] = [("1993", 15)] := by
  have h := group_means_single_source "topex_pos" "1993"
    [("1993.1", (10 : ℚ)), ("1993.9", 20)] (by simp) (by decide)
  rw [h]
  norm_num

/-- C3: the division `annual_mean /= count` in `group_means` never divides by
zero: for every year drawn from a source's set of 4-character label prefixes,
the accumulated match count is at least 1. -/
theorem group_means_count_pos (obs : List Obs) (year : String)
    (h : year ∈ yearsOf obs) : 1 ≤ (yearAccum obs year).2 := by
  have hmem := (mem_yearsOf year obs).mp h
  simpa [yearAccum] using yearAccum_count_pos_of_mem year obs hmem 0 0

/-- Witness for C3 at a concrete one-observation source. -/
theorem group_means_count_pos_witness :
    1 ≤ (yearAccum [(("1993.1" : String), (10 : ℚ))] "1993").2 :=
  group_means_count_pos [("1993.1", 10)] "1993" (by
    rw [mem_yearsOf]
    exact ⟨("1993.1", 10), List.mem_cons_self _ _, by decide⟩)

/-- C9: the merge rule is order-dependent across three contributions: folding the
means 10, 20, 40 through `remove_dupes` in that order stores `27.5`, while the
order 20, 40, 10 stores `20`. -/
theorem remove_dupes_order_dependent :
    ∃ (a b c : ℚ) (y : String),
      List.lookup y (remove_dupes y (remove_dupes y (remove_dupes y [] a) b) c) ≠
        List.lookup y (remove_dupes y (remove_dupes y (remove_dupes y [] b) c) a) := by
  refine ⟨10, 20, 40, "1993", ?_⟩
  norm_num [remove_dupes, updateVal, List.lookup]

/-- C4: every year key present in the output of `group_means` is the 4-character
label prefix of at least one observation of at least one source of the input. -/
theorem group_means_keys_from_observations (data : SourceDataset) (Y : String)
    (h : Y ∈ (group_means data).map Prod.fst) :
    ∃ e ∈ data, ∃ p ∈ e.2, yearOfLabel p.1 = Y := by
  rcases mem_keys_group_means_fold Y data [] (by simpa [group_means] using h) with h' | h'
  · simp at h'
  · obtain ⟨e, he, hy⟩ := h'
    exact ⟨e, he, (mem_yearsOf Y e.2).mp hy⟩

/-- Witness for C4 at a concrete one-source dataset whose only year key is
"1993". -/
theorem group_means_keys_from_observations_witness :
    ∃ e ∈ [(("topex_pos" : String), [(("1993.1" : String), (10 : ℚ))])],
      ∃ p ∈ e.2, yearOfLabel p.1 = "1993" := by
  refine group_means_keys_from_observations [("topex_pos", [("1993.1", 10)])] "1993" ?_
  have hgm : group_means [(("topex_pos" : String), [(("1993.1" : String), (10 : ℚ))])] =
      [("1993", annualMean [("1993.1", (10 : ℚ))] "1993")] := by
    rw [group_means, List.foldl_cons, List.foldl_nil, processSource,
      yearsOf_all_eq "1993" _ (by simp) (by decide), List.foldl_cons, List.foldl_nil,
      remove_dupes_absent "1993" [] _ rfl, List.nil_append]
  rw [hgm]
  simp

/-- C10: when exactly one source of the dataset has observations with year label
`Y`, the value `group_means` stores at key `Y` is exactly that source's annual
mean, with no further averaging. -/
theorem group_means_single_contributor (pre post : SourceDataset) (s Y : String)
    (obs : List Obs) (hY : Y ∈ yearsOf obs)
    (hpre : ∀ e ∈ pre, ∀ p ∈ e.2, yearOfLabel p.1 ≠ Y)
    (hpost : ∀ e ∈ post, ∀ p ∈ e.2, yearOfLabel p.1 ≠ Y) :
    List.lookup Y (group_means (pre ++ (s, obs) :: post)) = some (annualMean obs Y) := by
  have h1 : List.lookup Y (pre.foldl (fun nd entry => processSource nd entry.2) []) = none := by
    rw [lookup_group_means_fold_not_mem Y pre hpre []]
    rfl
  rw [group_means, List.foldl_append, List.foldl_cons,
    lookup_group_means_fold_not_mem Y post hpost]
  exact lookup_foldl_years_found Y (annualMean obs) (yearsOf obs) hY (nodup_yearsOf obs) _ h1

/-- Witness for C10: `jason-1` is the only source with observations in 1993, so
the 1993 entry is exactly its mean 15 even though another source contributed a
1994 mean earlier. -/
theorem group_means_single_contributor_witness :
    List.lookup "1993"
      (group_means ([(("topex_pos" : String), [(("1994.1" : String), (5 : ℚ))])] ++
        ("jason-1", [("1993.1", (10 : ℚ)), ("1993.9", 20)]) :: [])) = some 15 := by
  have h := group_means_single_contributor
    [("topex_pos", [("1994.1", 5)])] [] "jason-1" "1993"
    [("1993.1", (10 : ℚ)), ("1993.9", 20)]
    (by
      rw [mem_yearsOf]
      exact ⟨("1993.1", 10), List.mem_cons_self _ _, by decide⟩)
    (by decide)
    (by simp)
  rw [h]
  have hmean : annualMean [("1993.1", (10 : ℚ)), ("1993.9", 20)] "1993" = 15 := by
    rw [annualMean, yearAccum, yearAccum_go_all "1993" _ (by decide) 0 0]
    norm_num
  rw [hmean]

/-- C7: given the external routine's result, `predict_data` appends one row per
year from 2021 up to but excluding `endYear`, pairing the k-th year `2021 + k`
with the k-th predicted value; it fails with an IndexError when the prediction
list holds fewer values than the number of years in that range. -/
theorem predict_data_rows (endYear : ℤ) (preds : List ℚ) :
    ((endYear - 2021).toNat ≤ preds.length →
      predict_data endYear preds = .ok ((pyRange 2021 endYear).zip preds) ∧
      ∀ k, k < (endYear - 2021).toNat →
        ((pyRange 2021 endYear).zip preds).get? k = some (2021 + (k : ℤ), preds.getD k 0)) ∧
    (preds.length < (endYear - 2021).toNat →
      predict_data endYear preds = .error .indexError) := by
  constructor
  · intro h
    constructor
    · rw [predict_data, predictAux_ok preds (pyRange 2021 endYear) 0
        (by rw [pyRange_length]; omega), List.drop_zero]
    · intro k hk
      have hkp : k < preds.length := lt_of_lt_of_le hk h
      exact zip_get?_eq _ _ k (pyRange_get? 2021 endYear k hk)
        (by rw [List.get?_eq_get hkp, List.getD_eq_get?, List.get?_eq_get hkp]; rfl)
  · intro h
    have hne : pyRange 2021 endYear ≠ [] := by
      intro hempty
      have hlen : (pyRange 2021 endYear).length = 0 := by rw [hempty]; rfl
      rw [pyRange_length] at hlen
      omega
    rw [predict_data, predictAux_error preds _ 0 hne (by rw [pyRange_length]; omega)]

/-- Witness for C7: with end year 2024, three predictions fill the three years
2021, 2022, 2023; a single prediction exhausts and raises IndexError. -/
theorem predict_data_rows_witness :
    predict_data 2024 [(1 : ℚ), 2, 3] = .ok [(2021, 1), (2022, 2), (2023, 3)] ∧
    predict_data 2024 [(1 : ℚ)] = .error .indexError := by
  constructor
  · have h := (predict_data_rows 2024 [(1 : ℚ), 2, 3]).1 (by simp)
    rw [h.1]
    simp only [pyRange, Int.reduceSub, Int.reduceToNat]
    norm_num [List.range_succ, List.zip_cons_cons]
  · exact (predict_data_rows 2024 [(1 : ℚ)]).2 (by simp)

/-- C8: `decimal_year_to_datetime` splits its input into whole year and
fractional remainder, scales the remainder by the year's actual duration (365
days for 2003, 366 for 2004), adds the offset to January 1 and truncates to
the first day of the month: 2003.0 maps to 2003-01-01, 2003.5 to 2003-07-01,
and every successfully returned date has day-of-month 1. -/
theorem decimal_year_to_datetime_spec :
    decimal_year_to_datetime 2003 = .ok ⟨2003, 1, 1⟩ ∧
    decimal_year_to_datetime (4007 / 2) = .ok ⟨2003, 7, 1⟩ ∧
    daysInYear 2003 = 365 ∧ daysInYear 2004 = 366 ∧
    ∀ (x : ℚ) (d : Date), decimal_year_to_datetime x = .ok d → d.day = 1 := by
  refine ⟨?_, ?_, by norm_num [daysInYear, isLeap], by norm_num [daysInYear, isLeap], ?_⟩
  · norm_num [decimal_year_to_datetime, intTrunc, daysInYear, isLeap, monthLengths, monthDayAux,
      Int.toNat_ofNat]
  · norm_num [decimal_year_to_datetime, intTrunc, daysInYear, isLeap, monthLengths, monthDayAux,
      Int.toNat_ofNat]
    decide
  · intro x d h
    rw [decimal_year_to_datetime] at h
    split at h
    · exact absurd h (by simp)
    · cases h
      rfl

/-- Witness for C8: the date computed for 2003.5 indeed has day-of-month 1. -/
theorem decimal_year_to_datetime_spec_witness : (⟨2003, 7, 1⟩ : Date).day = 1 :=
  decimal_year_to_datetime_spec.2.2.2.2 (4007 / 2) ⟨2003, 7, 1⟩
    decimal_year_to_datetime_spec.2.1

/-- C5: on a well-formed input file (each data row with at least five columns and
every non-empty value column parseable) `read_csv_data` succeeds; its key set
is exactly the four fixed satellite names in order, each column's list is the
spec-described collection of its non-empty cells, and every returned
observation stems from a non-empty cell parsed and paired with the row's
time-label. -/
theorem read_csv_data_wellformed (pf : String → Option ℚ) (rows : List (List String))
    (h6 : 6 ≤ rows.length) (hwf : ∀ row ∈ rows.drop 6, wellFormedRow pf row) :
    read_csv_data pf rows = .ok
      [("topex_pos", specColObs pf 1 (rows.drop 6)),
       ("jason-1", specColObs pf 2 (rows.drop 6)),
       ("jason-2", specColObs pf 3 (rows.drop 6)),
       ("jason-3", specColObs pf 4 (rows.drop 6))] ∧
    ∀ d, read_csv_data pf rows = .ok d →
      d.map Prod.fst = ["topex_pos", "jason-1", "jason-2", "jason-3"] ∧
      ∀ e ∈ d, ∀ q ∈ e.2, ∃ row ∈ rows.drop 6, ∃ j, j ∈ [1, 2, 3, 4] ∧
        ∃ s, row.get? j = some s ∧ s ≠ "" ∧ pf s = some q.2 ∧ q.1 = row.getD 0 "" := by
  have hok : read_csv_data pf rows = .ok
      [("topex_pos", specColObs pf 1 (rows.drop 6)),
       ("jason-1", specColObs pf 2 (rows.drop 6)),
       ("jason-2", specColObs pf 3 (rows.drop 6)),
       ("jason-3", specColObs pf 4 (rows.drop 6))] := by
    rw [read_csv_data, if_neg (Nat.not_lt.mpr h6),
      readRowsAux_ok pf (rows.drop 6) hwf [] [] [] []]
    simp
  refine ⟨hok, fun d hd => ?_⟩
  rw [hok] at hd
  obtain rfl := (Except.ok.inj hd).symm
  refine ⟨by simp, fun e he q hq => ?_⟩
  have main : ∀ j, j ∈ [1, 2, 3, 4] → q ∈ specColObs pf j (rows.drop 6) →
      ∃ row ∈ rows.drop 6, ∃ j, j ∈ [1, 2, 3, 4] ∧
        ∃ s, row.get? j = some s ∧ s ≠ "" ∧ pf s = some q.2 ∧ q.1 = row.getD 0 "" := by
    intro j hj hq
    obtain ⟨row, hrow, hcol⟩ := List.mem_filterMap.mp hq
    obtain ⟨s, hs, hne, hps, hlbl⟩ := colOpt_eq_some pf row j q hcol
    exact ⟨row, hrow, j, hj, s, hs, hne, hps, hlbl⟩
  simp only [List.mem_cons, List.not_mem_nil, or_false] at he
  rcases he with rfl | rfl | rfl | rfl
  · exact main 1 (by simp) hq
  · exact main 2 (by simp) hq
  · exact main 3 (by simp) hq
  · exact main 4 (by simp) hq

/-- Witness for C5: a file with six preamble rows and one data row, read with a
parser mapping every non-empty cell to 1; the empty `jason-1` cell is skipped
and the other three sources each receive the row's observation. -/
theorem read_csv_data_wellformed_witness :
    read_csv_data (fun _ => some (1 : ℚ))
        [[], [], [], [], [], [], ["1993.1", "10", "", "20", "30"]] =
      .ok [("topex_pos", [("1993.1", 1)]), ("jason-1", []),
           ("jason-2", [("1993.1", 1)]), ("jason-3", [("1993.1", 1)])] := by
  have h := (read_csv_data_wellformed (fun _ => some (1 : ℚ))
      [[], [], [], [], [], [], ["1993.1", "10", "", "20", "30"]]
      (by simp) (by
        intro row hr
        simp at hr
        subst hr
        exact ⟨by decide, by decide⟩)).1
  rw [h]
  simp [specColObs, colOpt]

/-- C6: with the six-row preamble present, `read_csv_data` propagates an error
exactly when some data row has fewer than five columns or holds a non-empty
value in columns 1-4 that does not parse. -/
theorem read_csv_data_error_iff (pf : String → Option ℚ) (rows : List (List String))
    (h6 : 6 ≤ rows.length) :
    (∃ e, read_csv_data pf rows = .error e) ↔ ∃ row ∈ rows.drop 6, badRow pf row := by
  constructor
  · rintro ⟨e, he⟩
    by_contra hno
    push_neg at hno
    have hwf : ∀ row ∈ rows.drop 6, wellFormedRow pf row :=
      fun r hr => (not_badRow_iff pf r).mp (hno r hr)
    rw [read_csv_data, if_neg (Nat.not_lt.mpr h6),
      readRowsAux_ok pf (rows.drop 6) hwf [] [] [] []] at he
    simp at he
  · rintro ⟨row, hr, hb⟩
    obtain ⟨e, he⟩ := readRowsAux_error_of_bad pf (rows.drop 6) [] [] [] [] ⟨row, hr, hb⟩
    refine ⟨e, ?_⟩
    rw [read_csv_data, if_neg (Nat.not_lt.mpr h6), he]

/-- Witness for C6: a data row with only two columns makes the run abort. -/
theorem read_csv_data_error_iff_witness :
    ∃ e, read_csv_data (fun _ => some (1 : ℚ))
        [[], [], [], [], [], [], ["1993.1", "10"]] = .error e :=
  (read_csv_data_error_iff (fun _ => some (1 : ℚ))
      [[], [], [], [], [], [], ["1993.1", "10"]] (by simp)).mpr
    ⟨["1993.1", "10"], by simp, Or.inl (by simp)⟩

end VSLR
